import Mathlib

/-
Verification development for the eenx16-modbus-rs485 repository
(`modbus.c`, `influx.c`, `influx.h`).

The C sources are shallowly embedded: machine integers become `Nat`/`Int`
with explicit truncation (`% 2^32`, `% 2^64`) where the C type forces it,
`struct timespec` becomes a pair of `Int`s, C truncated division and
remainder become `Int.tdiv`/`Int.tmod`, `double` field values are modelled
as `Rat`, NULL pointers become `Option`, and heap-allocation outcomes are
passed as explicit `Bool` parameters.  External collaborators (libmodbus,
libcurl, the clocks) are modelled as explicit parameters carrying the value
the collaborator returned.
-/

/-- Model of C `struct timespec`: seconds and nanoseconds as mathematical
integers (`time_t`/`long` overflow is out of model). -/
structure timespec where
  tv_sec : Int
  tv_nsec : Int
  deriving DecidableEq

/-- Embedding of `ts_diff` from modbus.c: computes `a - b` using C `long`
arithmetic; C `%` and `/` truncate toward zero, hence `Int.tmod`/`Int.tdiv`. -/
def ts_diff (a b : timespec) : timespec :=
  let diff_sec : Int := a.tv_sec - b.tv_sec
  let diff_nsec : Int := 1000000000 * diff_sec + (a.tv_nsec - b.tv_nsec)
  { tv_nsec := Int.tmod diff_nsec 1000000000
  , tv_sec  := Int.tdiv diff_nsec 1000000000 }

/-- The loop guard of `increment_time` in modbus.c:
`d.tv_sec < 0 || (d.tv_sec == 0 && d.tv_nsec < 0)`. -/
def ts_stale (d : timespec) : Bool :=
  decide (d.tv_sec < 0) || (decide (d.tv_sec = 0) && decide (d.tv_nsec < 0))

/-- One iteration of the `while` body of `increment_time` in modbus.c
(INTERVAL = 5): zero the nanoseconds, then add INTERVAL if `tv_sec` is a
multiple of INTERVAL, else add `tv_sec % INTERVAL` (C truncated `%`). -/
def increment_step (spec : timespec) : timespec :=
  if Int.tmod spec.tv_sec 5 = 0 then
    { tv_sec := spec.tv_sec + 5, tv_nsec := 0 }
  else
    { tv_sec := spec.tv_sec + Int.tmod spec.tv_sec 5, tv_nsec := 0 }

/-- The `while` loop of `increment_time` in modbus.c.  The single
`clock_gettime(CLOCK_MONOTONIC_RAW)` read is the parameter `now`.  The C
loop has no built-in bound, so it is modelled with explicit `fuel`,
returning `none` when `fuel` iterations do not reach the exit condition;
sufficient fuel always exists for realistic inputs (proved below). -/
def increment_loop (now : timespec) : Nat → timespec → Option timespec
  | 0, spec =>
      if ts_stale (ts_diff spec now) then none else some spec
  | fuel + 1, spec =>
      if ts_stale (ts_diff spec now) then
        increment_loop now fuel (increment_step spec)
      else some spec

/-- Embedding of `increment_time` from modbus.c (the fueled loop). -/
def increment_time (now : timespec) (fuel : Nat) (spec : timespec) : Option timespec :=
  increment_loop now fuel spec

/-- Embedding of `wait_until_and_increment` from modbus.c: advance the
target with `increment_time`, then return the updated target together with
the microsecond wait handed to `usleep`.  Both `clock_gettime` reads of the
C function are modelled as the same instant `now` (the call-time reading).
The `useconds_t` casts are wrap-free at the point of use because the
difference is small and its `tv_nsec` is nonnegative on exit (proved
below), so the wait is modelled as an `Int`. -/
def wait_until_and_increment (now : timespec) (fuel : Nat) (t : timespec) :
    Option (timespec × Int) :=
  match increment_time now fuel t with
  | none => none
  | some t2 =>
      let diff := ts_diff t2 now
      some (t2, diff.tv_sec * 1000000 + Int.tdiv diff.tv_nsec 1000)

/-- Total nanosecond value of a timespec (specification-side view). -/
def tsval (t : timespec) : Int :=
  1000000000 * t.tv_sec + t.tv_nsec

/-- Embedding of `regs2uint32` from modbus.c: `uint32_t` arithmetic on two
16-bit registers, `((uint32_t) up << 16) | lo`, truncated to 32 bits. -/
def regs2uint32 (regs : Fin 2 → Nat) : Nat :=
  ((regs 0 <<< 16) ||| regs 1) % 4294967296

/-- Embedding of `regs2uint64` from modbus.c: `uint64_t` arithmetic on four
16-bit registers, `(ms << 48) | (midl << 32) | (midr << 16) | ls`,
truncated to 64 bits. -/
def regs2uint64 (regs : Fin 4 → Nat) : Nat :=
  ((regs 0 <<< 48) ||| (regs 1 <<< 32) ||| (regs 2 <<< 16) ||| regs 3) % 18446744073709551616

/-- Per-device body of the acquisition loop in `main` (modbus.c).  The
collaborator `modbus_read_registers` is modelled by `rc`, mapping (slave id,
start address) to the returned count (negative on transport error).  The
three blocks are read at 0x5B00 (28 registers), 0x5000 (56 registers) and
0x5460 (36 registers); the device contributes its three measurement lines
exactly when all three reads return the full requested count, mirroring the
`if (rc < 0) break;` / `if (rc == want) decode else break;` sequence. -/
def deviceCycle (rc : Nat → Nat → Int) (i : Nat) : Bool :=
  let r1 := rc i 23296
  if r1 < 0 then false
  else if r1 = 28 then
    let r2 := rc i 20480
    if r2 < 0 then false
    else if r2 = 56 then
      let r3 := rc i 21600
      if r3 < 0 then false
      else if r3 = 36 then true
      else false
    else false
  else false

/-- The `for (int i=1; i < 4; i++)` meter loop of `main` (modbus.c) with its
C `break` semantics: any failed block read exits the whole loop.  Returns
the list of devices that contributed their full three measurements to the
cycle payload. -/
def cycleLoop (rc : Nat → Nat → Int) : List Nat → List Nat
  | [] => []
  | i :: rest => if deviceCycle rc i then i :: cycleLoop rc rest else []

/-- One acquisition cycle over the three meters (slave ids 1, 2, 3). -/
def cycleDevices (rc : Nat → Nat → Int) : List Nat :=
  cycleLoop rc [1, 2, 3]

/-- Concrete read-outcome table: every block read succeeds except device 2's
second block (0x5000), which reports a transport error. -/
def rcFail2 : Nat → Nat → Int := fun i a =>
  if i = 2 ∧ a = 20480 then -1
  else if a = 23296 then 28
  else if a = 20480 then 56
  else 36

/-- Concrete read-outcome table: every block read returns the full count. -/
def rcAllOk : Nat → Nat → Int := fun _ a =>
  if a = 23296 then 28
  else if a = 20480 then 56
  else 36

/-- Model of C `struct field` from influx.h; `double` is modelled as `Rat`. -/
structure field where
  name : String
  value : Rat
  deriving DecidableEq

/-- Model of C `struct tag` from influx.h. -/
structure tag where
  name : String
  value : String
  deriving DecidableEq

/-- Model of C `struct influx_field_list` from influx.h.  `elems` is the
chain hanging off `next`; `lastNull` records whether the `last` pointer is
NULL.  Representation invariant carried by the model: whenever `last` is
non-NULL it points at the final chain node (true of every state the API can
produce), so the C write `lst->last->next = ...` extends the chain at its
end and assigning NULL there on allocation failure is a no-op. -/
structure influx_field_list where
  num : Nat
  elems : List field
  lastNull : Bool
  deriving DecidableEq

/-- Embedding of `influx_field_list_create` from influx.c: `calloc` zeroes
the struct, so the count is 0 and both pointers are NULL. -/
def influx_field_list_create : influx_field_list :=
  { num := 0, elems := [], lastNull := true }

/-- Embedding of `influx_field_list_append` from influx.c.  `nameOk` models
the `fstring` copy of the field name succeeding, `elemOk` the `calloc` of
the new element succeeding; `lst = none` models a NULL list pointer.
Returns the C return value and the (possibly updated) list state. -/
def influx_field_list_append (nameOk elemOk : Bool) (lst : Option influx_field_list)
    (fname : String) (v : Rat) : Int × Option influx_field_list :=
  if nameOk = false then (-1, lst)
  else
    match lst with
    | none => (-1, none)
    | some l =>
      if l.elems = [] then
        if elemOk then (0, some { num := l.num + 1, elems := [{ name := fname, value := v }], lastNull := false })
        else (-1, some l)
      else if l.lastNull = false then
        if elemOk then (0, some { num := l.num + 1, elems := l.elems ++ [{ name := fname, value := v }], lastNull := false })
        else (-1, some l)
      else (-1, some l)

/-- Embedding of `influx_field_list_compact` from influx.c: walks the chain
while `head && i < lst->num`, copying each element into a fresh array of
`num + 1` slots; the list itself is taken by const pointer and never
written.  Allocation failures (which make the C function return NULL) are
not modelled; a NULL input yields NULL. -/
def influx_field_list_compact (lst : Option influx_field_list) : Option (List field) :=
  match lst with
  | none => none
  | some l => some (l.elems.take l.num)

/-- The sample field list used below: `create` followed by one successful
`append` of field "a" with value 1. -/
def fieldListA : Option influx_field_list :=
  (influx_field_list_append true true (some influx_field_list_create) "a" 1).2

/-- Model of `printf`-style `%f` conversion used by `influx_writer_line`
(influx.c): fixed-point decimal with exactly six fractional digits.  The
binary double value is modelled as a `Rat` and the rounding of the scaled
value to an integer is modelled with `round` (the C conversion rounds the
exact binary value to six decimals; the models differ only at exact ties,
which play no role below). -/
def fmtPad (n : Nat) : String :=
  Nat.repr (n / 1000000) ++ "." ++
    (String.mk (List.replicate (6 - (Nat.repr (n % 1000000)).length) '0') ++ Nat.repr (n % 1000000))

/-- Rendering of a `double` by `%f`: optional sign, then the scaled-and-
rounded magnitude split into integer part and six fractional digits. -/
def fmtF (q : Rat) : String :=
  (if q < 0 then "-" else "") ++ fmtPad ((round (|q| * 1000000)).toNat)

/-- One iteration of the tag loop of `influx_writer_line` (influx.c): the
separator is computed from the emptiness of the accumulated string, a tag
with an empty name or empty value is skipped (`continue`), otherwise
`"%s%s=%s"` appends separator, name, `=`, value. -/
def tagFold (acc : String) (t : tag) : String :=
  let sep := if acc = "" then "" else ","
  if t.name = "" ∨ t.value = "" then acc
  else acc ++ sep ++ t.name ++ "=" ++ t.value

/-- One iteration of the field loop of `influx_writer_line` (influx.c): a
field with an empty name is skipped, otherwise `"%s%s=%f"` appends
separator, name, `=`, and the `%f` rendering of the value. -/
def fieldFold (acc : String) (f : field) : String :=
  let sep := if acc = "" then "" else ","
  if f.name = "" then acc
  else acc ++ sep ++ f.name ++ "=" ++ fmtF f.value

/-- Embedding of `influx_writer_line` from influx.c.  NULL `measurement`,
`tags` or `fields` pointers are `none` and are rejected up front
(`errno = EINVAL; return NULL`).  The timestamp produced by
`influx_timestamp_precision` (a real-time clock read) is the parameter
`stamp`; `fstring` allocation failures are not modelled.  The result is
`"%s,%s %s %s"` applied to measurement, tag string, field string and
timestamp. -/
def influx_writer_line (measurement : Option String) (tags : Option (List tag))
    (fields : Option (List field)) (stamp : String) : Option String :=
  match measurement, tags, fields with
  | some m, some tl, some fl =>
      let tagstr := tl.foldl tagFold ""
      let fieldstr := fl.foldl fieldFold ""
      some (m ++ "," ++ tagstr ++ " " ++ fieldstr ++ " " ++ stamp)
  | _, _, _ => none

/-- Specification-side comma join: `joinPre` prefixes every entry with a
comma, `joinComma` joins a list of entries with commas. -/
def joinPre : List String → String
  | [] => ""
  | x :: xs => "," ++ x ++ joinPre xs

/-- Comma-separated join of a list of rendered entries. -/
def joinComma : List String → String
  | [] => ""
  | x :: xs => x ++ joinPre xs

/-- A tag survives filtering when both its name and its value are nonempty. -/
def keepTag (t : tag) : Bool :=
  decide (¬(t.name = "" ∨ t.value = ""))

/-- A field survives filtering when its name is nonempty. -/
def keepField (f : field) : Bool :=
  decide (¬(f.name = ""))

/-- Rendered form of one tag. -/
def renderTag (t : tag) : String :=
  t.name ++ "=" ++ t.value

/-- Rendered form of one field. -/
def renderField (f : field) : String :=
  f.name ++ "=" ++ fmtF f.value

/-- Generic shape of both accumulation loops of `influx_writer_line`. -/
def sepStep (keep : α → Bool) (render : α → String) (acc : String) (x : α) : String :=
  if keep x then acc ++ (if acc = "" then "" else ",") ++ render x else acc

/-- Outcome of `curl_easy_perform` as observed by `influx_http_post`
(influx.c), under the installed `CURLOPT_FAILONERROR` option: `ok` carries
the response body the write callback accumulated (none when the server sent
none); `httpErr` is `CURLE_HTTP_RETURNED_ERROR` together with the status
later fetched via `CURLINFO_RESPONSE_CODE`; `fail` is any other CURLcode
(DNS, connection, timeout, TLS, allocation). -/
inductive CurlPerform where
  | ok (body : Option String)
  | httpErr (status : Int)
  | fail
  deriving DecidableEq

/-- Modelled libcurl semantics with `CURLOPT_FAILONERROR` set: an HTTP
exchange that produced status `s` yields `CURLE_OK` (with the body) for
`s < 400` and `CURLE_HTTP_RETURNED_ERROR` carrying `s` for `s ≥ 400`; no
status at all (transport-level failure) yields another error code. -/
def curlPerform (status : Option Int) (body : Option String) : CurlPerform :=
  match status with
  | none => CurlPerform.fail
  | some s => if 400 ≤ s then CurlPerform.httpErr s else CurlPerform.ok body

/-- Embedding of the outcome classification of `influx_http_post`
(influx.c).  `ctxOk` models a usable context: non-NULL `ctx` and `lines`, a
live curl handle and all `curl_easy_setopt` calls succeeding (each failure
leaves `retval = -1`).  `wantResp` models the caller passing a non-NULL
`response` pointer: the body is handed out only when the server sent one
and the caller asked.  The `switch (rc)`: `CURLE_OK` gives 0,
`CURLE_HTTP_RETURNED_ERROR` gives the HTTP status, anything else leaves
-1. -/
def influx_http_post (ctxOk : Bool) (outcome : CurlPerform) (wantResp : Bool) :
    Int × Option String :=
  if ctxOk = false then (-1, none)
  else
    match outcome with
    | CurlPerform.ok body => (0, if wantResp then body else none)
    | CurlPerform.httpErr s => (s, none)
    | CurlPerform.fail => (-1, none)

/-- Header list assembled by `influx_lines_post` (influx.c): fixed `Accept`
and `Content-Type` headers, plus `Authorization: Token <secret>` exactly
when `getenv("INFLUXDB_TOKEN")` is set (modelled by `token`).  Allocation
failures in `fstring`/`slist_append` are not modelled. -/
def influx_lines_post_headers (token : Option String) : List String :=
  match token with
  | some t => ["Accept: application/json", "Content-Type: text/plain; charset=utf-8",
               "Authorization: Token " ++ t]
  | none => ["Accept: application/json", "Content-Type: text/plain; charset=utf-8"]

/-- Embedding of `influx_lines_post` (influx.c): assemble the headers from
the environment-sourced token, then perform the POST via
`influx_http_post`.  The result pairs the headers that were sent with the
classified outcome. -/
def influx_lines_post (token : Option String) (ctxOk : Bool) (outcome : CurlPerform)
    (wantResp : Bool) : List String × (Int × Option String) :=
  (influx_lines_post_headers token, influx_http_post ctxOk outcome wantResp)

/-- Concrete register pair 0x1234, 0x5678 for evaluating the decoders. -/
def regsPair : Fin 2 → Nat := fun i => if i.val = 0 then 4660 else 22136

/-- Concrete register quadruple 0x0001, 0x0002, 0x0003, 0x0004. -/
def regsQuad : Fin 4 → Nat := fun i => i.val + 1

/-- Negating the dividend negates C truncated remainder. -/
theorem tmod_neg_left (a b : Int) : (-a).tmod b = -(a.tmod b) := by
  rw [Int.tmod_def, Int.tmod_def, Int.neg_tdiv]
  ring

/-- C truncated division of a nonpositive value by a nonnegative one is
nonpositive. -/
theorem tdiv_nonpos_of_nonpos {a b : Int} (h : a ≤ 0) (hb : 0 ≤ b) : a.tdiv b ≤ 0 := by
  have h1 : a.tdiv b = -((-a).tdiv b) := by rw [Int.neg_tdiv]; ring
  have h2 : 0 ≤ (-a).tdiv b := Int.tdiv_nonneg (by omega) hb
  omega

/-- C truncated remainder of a nonpositive value is nonpositive. -/
theorem tmod_nonpos_of_nonpos {a b : Int} (h : a ≤ 0) : a.tmod b ≤ 0 := by
  have h1 : a.tmod b = -((-a).tmod b) := by rw [tmod_neg_left]; ring
  have h2 : 0 ≤ (-a).tmod b := Int.tmod_nonneg _ (by omega)
  omega

/-- The C sign test performed by the `increment_time` guard on a truncated
quotient-and-remainder pair is equivalent to the sign of the dividend. -/
theorem tdiv_tmod_neg_iff (D : Int) :
    (Int.tdiv D 1000000000 < 0 ∨ (Int.tdiv D 1000000000 = 0 ∧ Int.tmod D 1000000000 < 0)) ↔
      D < 0 := by
  constructor
  · intro h
    by_contra hD
    push_neg at hD
    have h1 : 0 ≤ Int.tdiv D 1000000000 := Int.tdiv_nonneg hD (by norm_num)
    have h2 : 0 ≤ Int.tmod D 1000000000 := Int.tmod_nonneg _ hD
    omega
  · intro hD
    have h1 : Int.tdiv D 1000000000 ≤ 0 := tdiv_nonpos_of_nonpos (le_of_lt hD) (by norm_num)
    have h2 : 1000000000 * Int.tdiv D 1000000000 + Int.tmod D 1000000000 = D :=
      Int.tdiv_add_tmod D 1000000000
    rcases eq_or_lt_of_le h1 with he | hlt
    · right
      exact ⟨he, by omega⟩
    · left
      exact hlt

/-- Components of `ts_diff` expressed through the total nanosecond values. -/
theorem ts_diff_comp (a b : timespec) :
    (ts_diff a b).tv_sec = Int.tdiv (tsval a - tsval b) 1000000000 ∧
    (ts_diff a b).tv_nsec = Int.tmod (tsval a - tsval b) 1000000000 := by
  have harg : 1000000000 * (a.tv_sec - b.tv_sec) + (a.tv_nsec - b.tv_nsec) =
      tsval a - tsval b := by
    unfold tsval; ring
  simp only [ts_diff]
  rw [harg]
  exact ⟨rfl, rfl⟩

/-- The `increment_time` guard fires exactly when the target instant is
strictly earlier than `now`. -/
theorem ts_stale_iff (a b : timespec) :
    ts_stale (ts_diff a b) = true ↔ tsval a < tsval b := by
  obtain ⟨h1, h2⟩ := ts_diff_comp a b
  unfold ts_stale
  rw [h1, h2]
  simp only [Bool.or_eq_true, Bool.and_eq_true, decide_eq_true_eq]
  rw [tdiv_tmod_neg_iff]
  omega

/-- A single loop iteration strictly increases `tv_sec` (given a nonnegative
target second count) and zeroes `tv_nsec`. -/
theorem increment_step_incr {s : timespec} (h : 0 ≤ s.tv_sec) :
    s.tv_sec + 1 ≤ (increment_step s).tv_sec ∧ (increment_step s).tv_nsec = 0 ∧
      0 ≤ (increment_step s).tv_sec := by
  unfold increment_step
  by_cases h5 : Int.tmod s.tv_sec 5 = 0
  · rw [if_pos h5]
    refine ⟨?_, rfl, ?_⟩
    · show s.tv_sec + 1 ≤ s.tv_sec + 5
      omega
    · show (0 : Int) ≤ s.tv_sec + 5
      omega
  · rw [if_neg h5]
    have hge : 0 ≤ Int.tmod s.tv_sec 5 := Int.tmod_nonneg _ h
    refine ⟨?_, rfl, ?_⟩
    · show s.tv_sec + 1 ≤ s.tv_sec + Int.tmod s.tv_sec 5
      omega
    · show (0 : Int) ≤ s.tv_sec + Int.tmod s.tv_sec 5
      omega

/-- When the guard is already false the loop exits immediately at any fuel. -/
theorem increment_loop_exit {now spec : timespec}
    (h : ts_stale (ts_diff spec now) = false) (fuel : Nat) :
    increment_loop now fuel spec = some spec := by
  cases fuel <;> simp [increment_loop, h]

/-- Fuel bound: starting from a zeroed-nanosecond target whose total value
is at most `k` intervals of one second behind `now`, `k + 1` iterations
reach the exit condition. -/
theorem increment_loop_fuel (now : timespec) :
    ∀ (k : Nat) (spec : timespec), 0 ≤ spec.tv_sec → spec.tv_nsec = 0 →
      tsval now ≤ tsval spec + k * 1000000000 →
      (increment_loop now (k + 1) spec).isSome = true := by
  intro k
  induction k with
  | zero =>
    intro spec h0 hn hle
    have hst : ts_stale (ts_diff spec now) = false := by
      rw [← Bool.not_eq_true, ts_stale_iff]
      omega
    rw [increment_loop_exit hst]
    rfl
  | succ k ih =>
    intro spec h0 hn hle
    cases hb : ts_stale (ts_diff spec now) with
    | false =>
      rw [increment_loop_exit hb]
      rfl
    | true =>
      obtain ⟨hs1, hs2, hs3⟩ := increment_step_incr h0
      have kstep : tsval now ≤ tsval (increment_step spec) + k * 1000000000 := by
        unfold tsval at hle ⊢
        omega
      have hun : increment_loop now (k + 1 + 1) spec =
          increment_loop now (k + 1) (increment_step spec) := by
        simp [increment_loop, hb]
      rw [hun]
      exact ih (increment_step spec) hs3 hs2 kstep

/-- C10: for every target timespec with nonnegative `tv_sec` and every fixed
monotonic clock reading, `increment_time` terminates (some finite fuel
reaches the exit condition); each loop iteration adds INTERVAL = 5 when
`tv_sec` is a multiple of 5 and otherwise the positive remainder
`tv_sec % 5`, so `tv_sec` strictly increases; and without the nonnegativity
precondition the strict increase fails (at `tv_sec = -3` the body decreases
the target). -/
theorem C10_increment_time_terminates (now spec : timespec) (h0 : 0 ≤ spec.tv_sec) :
    (∃ fuel, (increment_time now fuel spec).isSome = true) ∧
    (Int.tmod spec.tv_sec 5 = 0 →
      increment_step spec = { tv_sec := spec.tv_sec + 5, tv_nsec := 0 }) ∧
    (Int.tmod spec.tv_sec 5 ≠ 0 →
      0 < Int.tmod spec.tv_sec 5 ∧
      increment_step spec = { tv_sec := spec.tv_sec + Int.tmod spec.tv_sec 5, tv_nsec := 0 }) ∧
    spec.tv_sec < (increment_step spec).tv_sec ∧
    (increment_step { tv_sec := -3, tv_nsec := 0 }).tv_sec < -3 := by
  refine ⟨?_, ?_, ?_, ?_, by decide⟩
  · cases hb : ts_stale (ts_diff spec now) with
    | false =>
      refine ⟨0, ?_⟩
      unfold increment_time
      rw [increment_loop_exit hb]
      rfl
    | true =>
      obtain ⟨hs1, hs2, hs3⟩ := increment_step_incr h0
      refine ⟨(tsval now - tsval (increment_step spec)).toNat + 1 + 1, ?_⟩
      unfold increment_time
      have hun : increment_loop now ((tsval now - tsval (increment_step spec)).toNat + 1 + 1) spec =
          increment_loop now ((tsval now - tsval (increment_step spec)).toNat + 1)
            (increment_step spec) := by
        simp [increment_loop, hb]
      rw [hun]
      refine increment_loop_fuel now _ (increment_step spec) hs3 hs2 ?_
      have hk : tsval now - tsval (increment_step spec) ≤
          ((tsval now - tsval (increment_step spec)).toNat : Int) :=
        Int.self_le_toNat _
      omega
  · intro h5
    unfold increment_step
    rw [if_pos h5]
  · intro h5
    have hge : 0 ≤ Int.tmod spec.tv_sec 5 := Int.tmod_nonneg _ h0
    refine ⟨by omega, ?_⟩
    unfold increment_step
    rw [if_neg h5]
  · exact (increment_step_incr h0).1.trans_lt' (by omega)

/-- Witness for C10 at the concrete input now = (10 s, 0 ns),
target = (0 s, 0 ns). -/
theorem C10_witness :
    ∃ fuel, (increment_time { tv_sec := 10, tv_nsec := 0 } fuel
      { tv_sec := 0, tv_nsec := 0 }).isSome = true :=
  (C10_increment_time_terminates { tv_sec := 10, tv_nsec := 0 }
    { tv_sec := 0, tv_nsec := 0 } (by decide)).1

/-- Any property preserved by the loop body along staleness holds at the
loop's result, and the result satisfies the exit condition. -/
theorem increment_loop_invariant (now : timespec) (P : timespec → Prop)
    (hstep : ∀ s, P s → ts_stale (ts_diff s now) = true → P (increment_step s)) :
    ∀ (fuel : Nat) (s t' : timespec), P s → increment_loop now fuel s = some t' →
      P t' ∧ ts_stale (ts_diff t' now) = false := by
  intro fuel
  induction fuel with
  | zero =>
    intro s t' hP hrun
    cases hb : ts_stale (ts_diff s now) with
    | true => simp [increment_loop, hb] at hrun
    | false =>
      simp [increment_loop, hb] at hrun
      subst hrun
      exact ⟨hP, hb⟩
  | succ fuel ih =>
    intro s t' hP hrun
    cases hb : ts_stale (ts_diff s now) with
    | true =>
      have hrun2 : increment_loop now fuel (increment_step s) = some t' := by
        simpa [increment_loop, hb] using hrun
      exact ih (increment_step s) t' (hstep s hP hb) hrun2
    | false =>
      simp [increment_loop, hb] at hrun
      subst hrun
      exact ⟨hP, hb⟩

/-- Reading off a successful run of `wait_until_and_increment`: the loop
result and the microsecond wait formula. -/
theorem wait_until_eq_some {now : timespec} {fuel : Nat} {t t' : timespec} {w : Int}
    (h : wait_until_and_increment now fuel t = some (t', w)) :
    increment_time now fuel t = some t' ∧
    w = (ts_diff t' now).tv_sec * 1000000 + Int.tdiv (ts_diff t' now).tv_nsec 1000 := by
  unfold wait_until_and_increment at h
  cases hloop : increment_time now fuel t with
  | none =>
    rw [hloop] at h
    simp at h
  | some t2 =>
    rw [hloop] at h
    simp only [Option.some.injEq, Prod.mk.injEq] at h
    obtain ⟨h1, h2⟩ := h
    subst h1
    exact ⟨rfl, h2.symm⟩

/-- C1 (amended): starting from a target on an interval boundary
(`tv_sec` a nonnegative multiple of 5, `tv_nsec = 0`), the Scheduler's next
operation keeps the target on 5-second boundaries, never regresses it,
lands at or after `now` on the smallest such boundary (unless the target
was not moved at all, the boundary 5 seconds earlier is still before
`now`), and returns a nonnegative — possibly zero — wait. -/
theorem C1_scheduler_amended (now t : timespec) (fuel : Nat)
    (h5 : Int.tmod t.tv_sec 5 = 0) (hn : t.tv_nsec = 0) (h0 : 0 ≤ t.tv_sec)
    (t' : timespec) (w : Int)
    (hrun : wait_until_and_increment now fuel t = some (t', w)) :
    Int.tmod t'.tv_sec 5 = 0 ∧ t'.tv_nsec = 0 ∧ t.tv_sec ≤ t'.tv_sec ∧
    tsval now ≤ tsval t' ∧ 0 ≤ w ∧
    (t' = t ∨ tsval { tv_sec := t'.tv_sec - 5, tv_nsec := 0 } < tsval now) := by
  obtain ⟨hloop, hw⟩ := wait_until_eq_some hrun
  have hinv := increment_loop_invariant now
    (fun s => Int.tmod s.tv_sec 5 = 0 ∧ s.tv_nsec = 0 ∧ 0 ≤ s.tv_sec ∧
      t.tv_sec ≤ s.tv_sec ∧
      (s = t ∨ tsval { tv_sec := s.tv_sec - 5, tv_nsec := 0 } < tsval now))
    ?hstep fuel t t' ⟨h5, hn, h0, le_refl _, Or.inl rfl⟩ hloop
  case hstep =>
    intro s hP hst
    obtain ⟨p5, pn, p0, pt, _⟩ := hP
    have hstep : increment_step s = { tv_sec := s.tv_sec + 5, tv_nsec := 0 } := by
      unfold increment_step
      rw [if_pos p5]
    rw [hstep]
    dsimp only
    have hlt : tsval s < tsval now := (ts_stale_iff s now).1 hst
    refine ⟨?_, rfl, by omega, by omega, Or.inr ?_⟩
    · rw [Int.tmod_eq_emod p0 (by norm_num)] at p5
      rw [Int.tmod_eq_emod (by omega) (by norm_num)]
      omega
    · show tsval { tv_sec := s.tv_sec + 5 - 5, tv_nsec := 0 } < tsval now
      unfold tsval at hlt ⊢
      dsimp only
      omega
  obtain ⟨⟨q5, qn, q0, qt, qmin⟩, hexit⟩ := hinv
  have hnow : tsval now ≤ tsval t' := by
    by_contra hcon
    push_neg at hcon
    rw [(ts_stale_iff t' now).2 hcon] at hexit
    exact absurd hexit (by simp)
  have hww : 0 ≤ w := by
    obtain ⟨hc1, hc2⟩ := ts_diff_comp t' now
    have hD : 0 ≤ tsval t' - tsval now := by omega
    have h1 : 0 ≤ (ts_diff t' now).tv_sec := by
      rw [hc1]
      exact Int.tdiv_nonneg hD (by norm_num)
    have h2 : 0 ≤ (ts_diff t' now).tv_nsec := by
      rw [hc2]
      exact Int.tmod_nonneg _ hD
    have h3 : 0 ≤ Int.tdiv (ts_diff t' now).tv_nsec 1000 :=
      Int.tdiv_nonneg h2 (by norm_num)
    rw [hw]
    omega
  exact ⟨q5, qn, qt, hnow, hww, qmin⟩

/-- Witness for C1 (amended) at now = (7 s, 500000000 ns), target = (5 s, 0 ns),
fuel 3: the run produces target (10 s, 0 ns) and a wait of 2500000 us, which
is nonnegative and lands at or after now. -/
theorem C1_witness :
    0 ≤ (2500000 : Int) ∧
    tsval { tv_sec := 7, tv_nsec := 500000000 } ≤ tsval { tv_sec := 10, tv_nsec := 0 } := by
  have h := C1_scheduler_amended { tv_sec := 7, tv_nsec := 500000000 }
    { tv_sec := 5, tv_nsec := 0 } 3 (by decide) rfl (by decide)
    { tv_sec := 10, tv_nsec := 0 } 2500000 (by decide)
  exact ⟨h.2.2.2.2.1, h.2.2.2.1⟩

/-- C1 is false as stated: a target exactly equal to now is not advanced at
all and the returned wait is 0, not strictly positive; and a misaligned
past target (7 s against now = 8 s) is advanced by 7 mod 5 = 2 — not by a
whole multiple of the 5-second interval — landing on 9 s, which is not an
interval boundary. -/
theorem C1_counterexample :
    wait_until_and_increment { tv_sec := 100, tv_nsec := 0 } 1 { tv_sec := 100, tv_nsec := 0 } =
      some ({ tv_sec := 100, tv_nsec := 0 }, 0) ∧
    increment_time { tv_sec := 8, tv_nsec := 0 } 5 { tv_sec := 7, tv_nsec := 0 } =
      some { tv_sec := 9, tv_nsec := 0 } := by
  exact ⟨by decide, by decide⟩

/-- The meter loop with C `break` semantics is the longest prefix of devices
whose reads all succeed. -/
theorem cycleLoop_eq_takeWhile (rc : Nat → Nat → Int) (l : List Nat) :
    cycleLoop rc l = l.takeWhile (fun i => deviceCycle rc i) := by
  induction l with
  | nil => rfl
  | cons i rest ih =>
    by_cases h : deviceCycle rc i = true
    · simp [cycleLoop, List.takeWhile_cons, h, ih]
    · rw [Bool.not_eq_true] at h
      simp [cycleLoop, List.takeWhile_cons, h]

/-- C2 (amended): when a register-block read fails, the `break` abandons the
whole cycle, not just that device: the devices that contribute full
measurements in a cycle are exactly the longest prefix of (1, 2, 3) whose
three block reads all return the full count — a device appears in the
payload iff every device up to and including it polled successfully. -/
theorem C2_cycle_break_amended (rc : Nat → Nat → Int) (j : Nat) :
    cycleDevices rc = List.takeWhile (fun i => deviceCycle rc i) [1, 2, 3] ∧
    (j ∈ cycleDevices rc ↔
      (j ∈ ([1, 2, 3] : List Nat) ∧
        ∀ k ∈ ([1, 2, 3] : List Nat), k ≤ j → deviceCycle rc k = true)) := by
  refine ⟨cycleLoop_eq_takeWhile rc [1, 2, 3], ?_⟩
  cases h1 : deviceCycle rc 1 <;> cases h2 : deviceCycle rc 2 <;>
    cases h3 : deviceCycle rc 3 <;>
    simp [cycleDevices, cycleLoop, h1, h2, h3] <;> omega

/-- Witness for C2 (amended): with every read succeeding, device 3 is in the
payload. -/
theorem C2_witness : 3 ∈ cycleDevices rcAllOk :=
  (C2_cycle_break_amended rcAllOk 3).2.mpr (by decide)

/-- C2 is false as stated: with a transport error on device 2's second block
only device 1 contributes; devices 2 and 3 contribute nothing in that cycle
(device 3 is never even polled, because `break` leaves the meter loop). -/
theorem C2_counterexample :
    cycleDevices rcFail2 = [1] ∧ ¬ (3 ∈ cycleDevices rcFail2) ∧
    ¬ (2 ∈ cycleDevices rcFail2) := by
  exact ⟨by decide, by decide, by decide⟩

/-- Bitwise-or of a value shifted past `n` bits with a value below `2 ^ n`
is plain addition. -/
theorem lor_mul_eq_add {n b : Nat} (a : Nat) (hb : b < 2 ^ n) :
    (a * 2 ^ n) ||| b = a * 2 ^ n + b := by
  rw [Nat.mul_comm a (2 ^ n), ← Nat.mul_add_lt_is_or hb]

/-- C3: `regs2uint32` is `words[0] << 16 | words[1]` with no truncation for
16-bit inputs, equal to the big-endian concatenation value; `regs2uint64` is
the big-endian concatenation of four words with `words[0]` most
significant; the boundary registers 0x0000,0x0000 decode to 0 and
0xFFFF,0xFFFF to 0xFFFFFFFF. -/
theorem C3_decoders (r2 : Fin 2 → Nat) (r4 : Fin 4 → Nat)
    (h2 : ∀ i, r2 i < 65536) (h4 : ∀ i, r4 i < 65536) :
    regs2uint32 r2 = (r2 0 <<< 16) ||| r2 1 ∧
    regs2uint32 r2 = r2 0 * 65536 + r2 1 ∧
    regs2uint64 r4 = (r4 0 <<< 48) ||| (r4 1 <<< 32) ||| (r4 2 <<< 16) ||| r4 3 ∧
    regs2uint64 r4 = r4 0 * 281474976710656 + r4 1 * 4294967296 + r4 2 * 65536 + r4 3 ∧
    regs2uint32 (fun _ => 0) = 0 ∧
    regs2uint32 (fun _ => 65535) = 4294967295 := by
  have e32 : (r2 0 <<< 16) ||| r2 1 = r2 0 * 65536 + r2 1 := by
    rw [Nat.shiftLeft_eq]
    have hb : r2 1 < 2 ^ 16 := lt_of_lt_of_le (h2 1) (by norm_num)
    rw [lor_mul_eq_add (r2 0) hb]
    norm_num
  have hlt32 : r2 0 * 65536 + r2 1 < 4294967296 := by
    have ha := h2 0
    have hb := h2 1
    nlinarith
  have e64a : (r4 0 <<< 48) ||| (r4 1 <<< 32) = r4 0 * 281474976710656 + r4 1 * 4294967296 := by
    rw [Nat.shiftLeft_eq, Nat.shiftLeft_eq]
    have hb : r4 1 * 2 ^ 32 < 2 ^ 48 := by
      have := h4 1
      nlinarith
    rw [lor_mul_eq_add (r4 0) hb]
    norm_num
  have e64b : (r4 0 * 281474976710656 + r4 1 * 4294967296) ||| (r4 2 <<< 16) =
      r4 0 * 281474976710656 + r4 1 * 4294967296 + r4 2 * 65536 := by
    rw [Nat.shiftLeft_eq]
    have hc : r4 2 * 2 ^ 16 < 2 ^ 32 := by
      have := h4 2
      nlinarith
    have hsplit : r4 0 * 281474976710656 + r4 1 * 4294967296 =
        (r4 0 * 65536 + r4 1) * 2 ^ 32 := by
      norm_num
      ring
    rw [hsplit, lor_mul_eq_add (r4 0 * 65536 + r4 1) hc]
    norm_num
  have e64c : (r4 0 * 281474976710656 + r4 1 * 4294967296 + r4 2 * 65536) ||| r4 3 =
      r4 0 * 281474976710656 + r4 1 * 4294967296 + r4 2 * 65536 + r4 3 := by
    have hd : r4 3 < 2 ^ 16 := lt_of_lt_of_le (h4 3) (by norm_num)
    have hsplit : r4 0 * 281474976710656 + r4 1 * 4294967296 + r4 2 * 65536 =
        (r4 0 * 4294967296 + r4 1 * 65536 + r4 2) * 2 ^ 16 := by
      norm_num
      ring
    rw [hsplit, lor_mul_eq_add (r4 0 * 4294967296 + r4 1 * 65536 + r4 2) hd]
  have e64 : (r4 0 <<< 48) ||| (r4 1 <<< 32) ||| (r4 2 <<< 16) ||| r4 3 =
      r4 0 * 281474976710656 + r4 1 * 4294967296 + r4 2 * 65536 + r4 3 := by
    rw [e64a, e64b, e64c]
  have hlt64 : r4 0 * 281474976710656 + r4 1 * 4294967296 + r4 2 * 65536 + r4 3 <
      18446744073709551616 := by
    have ha := h4 0
    have hb := h4 1
    have hc := h4 2
    have hd := h4 3
    nlinarith
  have v32 : regs2uint32 r2 = r2 0 * 65536 + r2 1 := by
    unfold regs2uint32
    rw [e32]
    exact Nat.mod_eq_of_lt hlt32
  have v64 : regs2uint64 r4 = r4 0 * 281474976710656 + r4 1 * 4294967296 + r4 2 * 65536 + r4 3 := by
    unfold regs2uint64
    rw [e64]
    exact Nat.mod_eq_of_lt hlt64
  exact ⟨v32.trans e32.symm, v32, v64.trans e64.symm, v64, by decide, by decide⟩

/-- Witness for C3 on the registers 0x1234,0x5678 (decoding to 0x12345678)
and 0x0001,0x0002,0x0003,0x0004 (decoding to 0x0001000200030004). -/
theorem C3_witness :
    regs2uint32 regsPair = 4660 * 65536 + 22136 ∧
    regs2uint64 regsQuad = 1 * 281474976710656 + 2 * 4294967296 + 3 * 65536 + 4 := by
  have h := C3_decoders regsPair regsQuad (by decide) (by decide)
  exact ⟨h.2.1.trans (by decide), (h.2.2.2.1).trans (by decide)⟩

/-- C9: whenever `influx_field_list_append` returns -1 — NULL list,
malformed list (chain present but `last` NULL), failed name copy or failed
element allocation — the list passed in is returned exactly as it was:
same element count, same chain, same `last` pointer state. -/
theorem C9_append_failure_unchanged (nameOk elemOk : Bool)
    (lst : Option influx_field_list) (fname : String) (v : Rat)
    (h : (influx_field_list_append nameOk elemOk lst fname v).1 = -1) :
    (influx_field_list_append nameOk elemOk lst fname v).2 = lst := by
  unfold influx_field_list_append at h ⊢
  cases nameOk with
  | false => rfl
  | true =>
    cases lst with
    | none => rfl
    | some l =>
      by_cases he : l.elems = []
      · cases elemOk with
        | true => simp [he] at h
        | false => simp [he]
      · by_cases hl : l.lastNull = false
        · cases elemOk with
          | true => simp [he, hl] at h
          | false => simp [he, hl]
        · simp [he, hl]

/-- Witness for C9: appending to a NULL list with a successful name copy
fails and returns the NULL list unchanged. -/
theorem C9_witness : (influx_field_list_append true true none "a" 1).2 = none :=
  C9_append_failure_unchanged true true none "a" 1 (by decide)

/-- C4 is false as stated: `influx_field_list_compact` takes the list by
const pointer and never writes it, so a later append is accepted, not
rejected — after building ["a" = 1] and compacting it, appending "b" = 2
returns 0 and grows the list to two elements. -/
theorem C4_counterexample :
    influx_field_list_compact fieldListA = some [{ name := "a", value := 1 }] ∧
    (influx_field_list_append true true fieldListA "b" 2).1 = 0 ∧
    (influx_field_list_append true true fieldListA "b" 2).2 =
      some { num := 2, elems := [{ name := "a", value := 1 }, { name := "b", value := 2 }],
             lastNull := false } := by
  exact ⟨by decide, by decide, by decide⟩

/-- C4 (amended): compaction of a well-formed builder list (count matching
the chain, `last` NULL exactly on the empty chain) yields the snapshot of
exactly its elements in insertion order, does not modify the list, and a
subsequent append with successful allocations is accepted: it returns 0 and
appends the new field at the end. -/
theorem C4_compact_then_append (l : influx_field_list)
    (hnum : l.num = l.elems.length) (hlast : l.lastNull = l.elems.isEmpty)
    (fname : String) (v : Rat) :
    influx_field_list_compact (some l) = some l.elems ∧
    influx_field_list_append true true (some l) fname v =
      (0, some { num := l.num + 1, elems := l.elems ++ [{ name := fname, value := v }],
                 lastNull := false }) := by
  constructor
  · show some (List.take l.num l.elems) = some l.elems
    rw [hnum, List.take_length]
  · unfold influx_field_list_append
    cases he : l.elems with
    | nil =>
      simp [he]
    | cons x xs =>
      have hl : l.lastNull = false := by
        rw [hlast, he]
        rfl
      simp [he, hl]

/-- Witness for C4 (amended) on the one-element list ["a" = 1]. -/
theorem C4_witness :
    influx_field_list_compact (some (influx_field_list.mk 1 [field.mk "a" 1] false)) =
      some [field.mk "a" 1] ∧
    influx_field_list_append true true
        (some (influx_field_list.mk 1 [field.mk "a" 1] false)) "b" 2 =
      (0, some (influx_field_list.mk 2 [field.mk "a" 1, field.mk "b" 2] false)) := by
  have h := C4_compact_then_append (influx_field_list.mk 1 [field.mk "a" 1] false)
    (by decide) (by decide) "b" 2
  exact ⟨h.1, h.2.trans (by decide)⟩

/-- A string append with a nonempty right component is nonempty. -/
theorem append_ne_empty_of_right {s t : String} (h : t ≠ "") : s ++ t ≠ "" := by
  intro hc
  apply h
  have hd := congrArg String.data hc
  rw [String.data_append] at hd
  simp only [List.append_eq_nil] at hd
  exact String.ext hd.2

/-- A string append with a nonempty left component is nonempty. -/
theorem append_ne_empty_of_left {s t : String} (h : s ≠ "") : s ++ t ≠ "" := by
  intro hc
  apply h
  have hd := congrArg String.data hc
  rw [String.data_append] at hd
  simp only [List.append_eq_nil] at hd
  exact String.ext hd.1

/-- Folding the generic separator step from a nonempty accumulator appends
the comma-prefixed rendering of every kept entry. -/
theorem sepStep_foldl_acc (keep : α → Bool) (render : α → String)
    (hne : ∀ x, keep x = true → render x ≠ "") :
    ∀ (l : List α) (acc : String), acc ≠ "" →
      List.foldl (sepStep keep render) acc l = acc ++ joinPre ((l.filter keep).map render) := by
  intro l
  induction l with
  | nil =>
    intro acc hacc
    simp [joinPre]
  | cons x xs ih =>
    intro acc hacc
    by_cases hk : keep x = true
    · have hstep : sepStep keep render acc x = acc ++ "," ++ render x := by
        unfold sepStep
        rw [if_pos hk, if_neg hacc]
      have hacc2 : acc ++ "," ++ render x ≠ "" :=
        append_ne_empty_of_right (hne x hk)
      rw [List.foldl_cons, hstep, ih _ hacc2, List.filter_cons_of_pos hk]
      simp only [List.map_cons, joinPre]
      rw [String.append_assoc, String.append_assoc, String.append_assoc]
    · have hk2 : keep x = false := by
        rw [← Bool.not_eq_true]
        exact hk
      have hstep : sepStep keep render acc x = acc := by
        unfold sepStep
        rw [hk2]
        rfl
      rw [List.foldl_cons, hstep, ih _ hacc, List.filter_cons_of_neg (by simp [hk2])]

/-- Folding the generic separator step from the empty accumulator is the
comma join of the kept entries in order. -/
theorem sepStep_foldl (keep : α → Bool) (render : α → String)
    (hne : ∀ x, keep x = true → render x ≠ "") :
    ∀ l : List α,
      List.foldl (sepStep keep render) "" l = joinComma ((l.filter keep).map render) := by
  intro l
  induction l with
  | nil => rfl
  | cons x xs ih =>
    by_cases hk : keep x = true
    · have hstep : sepStep keep render "" x = render x := by
        unfold sepStep
        rw [if_pos hk, if_pos rfl]
        exact (String.empty_append _).trans rfl
      rw [List.foldl_cons, hstep, sepStep_foldl_acc keep render hne xs _ (hne x hk),
        List.filter_cons_of_pos hk]
      simp only [List.map_cons, joinComma]
    · have hk2 : keep x = false := by
        rw [← Bool.not_eq_true]
        exact hk
      have hstep : sepStep keep render "" x = "" := by
        unfold sepStep
        rw [hk2]
        rfl
      rw [List.foldl_cons, hstep, ih, List.filter_cons_of_neg (by simp [hk2])]

/-- The tag loop body is the generic separator step at the tag filter and
renderer. -/
theorem tagFold_eq_sepStep : tagFold = sepStep keepTag renderTag := by
  funext acc t
  unfold tagFold sepStep keepTag renderTag
  by_cases h : t.name = "" ∨ t.value = ""
  · simp [h]
  · simp [h, String.append_assoc]

/-- The field loop body is the generic separator step at the field filter
and renderer. -/
theorem fieldFold_eq_sepStep : fieldFold = sepStep keepField renderField := by
  funext acc f
  unfold fieldFold sepStep keepField renderField
  by_cases h : f.name = ""
  · simp [h]
  · simp [h, String.append_assoc]

/-- A rendered tag is never the empty string (it contains `=`). -/
theorem renderTag_ne_empty (t : tag) (_h : keepTag t = true) : renderTag t ≠ "" := by
  unfold renderTag
  exact append_ne_empty_of_left (append_ne_empty_of_right (by decide))

/-- A rendered field is never the empty string (it contains `=`). -/
theorem renderField_ne_empty (f : field) (_h : keepField f = true) : renderField f ≠ "" := by
  unfold renderField
  exact append_ne_empty_of_left (append_ne_empty_of_right (by decide))

/-- C6 (amended): for every present input, `influx_writer_line` renders the
tags in input order as name=value pairs joined by commas, skipping every
tag with an empty name or value; renders the fields in input order as
name=value pairs joined by commas, skipping every field with an empty name,
with each value formatted by `%f` — fixed-point decimal with exactly six
fractional digits, never scientific notation, but not full precision; and
joins the segments as `measurement,<tags> <fields> <timestamp>`. -/
theorem C6_line_render (m : String) (tl : List tag) (fl : List field) (stamp : String) :
    influx_writer_line (some m) (some tl) (some fl) stamp =
      some (m ++ "," ++ joinComma ((tl.filter keepTag).map renderTag) ++ " " ++
            joinComma ((fl.filter keepField).map renderField) ++ " " ++ stamp) := by
  show some (m ++ "," ++ tl.foldl tagFold "" ++ " " ++ fl.foldl fieldFold "" ++ " " ++ stamp) = _
  rw [tagFold_eq_sepStep, fieldFold_eq_sepStep,
    sepStep_foldl keepTag renderTag renderTag_ne_empty tl,
    sepStep_foldl keepField renderField renderField_ne_empty fl]

/-- C6 is false in its full-precision part: two different field values that
agree to six decimal places render to identical lines, so the `%f`
formatting is not full-precision (it keeps six fractional digits). -/
theorem C6_counterexample :
    influx_writer_line (some "m") (some []) (some [field.mk "f" (1/1000000000)]) "0" =
      influx_writer_line (some "m") (some []) (some [field.mk "f" 0]) "0" ∧
    (1/1000000000 : Rat) ≠ 0 := by
  have hr : round (|(1/1000000000 : Rat)| * 1000000) = 0 := by
    rw [abs_of_pos (by norm_num), round_eq]
    norm_num
  have h1 : fmtF (1/1000000000) = "0.000000" := by
    unfold fmtF
    rw [hr, if_neg (by norm_num)]
    decide
  have hr0 : round (|(0 : Rat)| * 1000000) = 0 := by
    simp
  have h0 : fmtF 0 = "0.000000" := by
    unfold fmtF
    rw [hr0, if_neg (by norm_num)]
    decide
  refine ⟨?_, by norm_num⟩
  show some ("m" ++ "," ++ "" ++ " " ++ fieldFold "" (field.mk "f" (1/1000000000)) ++ " " ++ "0") =
       some ("m" ++ "," ++ "" ++ " " ++ fieldFold "" (field.mk "f" 0) ++ " " ++ "0")
  unfold fieldFold
  rw [h1, h0]

/-- C5 (amended): `influx_writer_line` fails (returns no line, with
`errno = EINVAL`) exactly when the measurement pointer, the tag-list
pointer or the field-list pointer is absent (NULL); an empty measurement
string is not rejected, and a present-but-empty list yields a line with an
empty tag or field segment. -/
theorem C5_null_rejection (m : Option String) (tl : Option (List tag))
    (fl : Option (List field)) (stamp : String) :
    influx_writer_line m tl fl stamp = none ↔ (m = none ∨ tl = none ∨ fl = none) := by
  cases m <;> cases tl <;> cases fl <;> simp [influx_writer_line]

/-- Witness for C5 (amended): a NULL measurement is rejected. -/
theorem C5_witness : influx_writer_line none (some []) (some []) "0" = none :=
  (C5_null_rejection none (some []) (some []) "0").mpr (Or.inl rfl)

/-- C5 is false as stated: an empty (but non-NULL) measurement name is not
rejected — the encoder happily returns a line that begins with a comma. -/
theorem C5_counterexample :
    influx_writer_line (some "") (some [tag.mk "meter" "2"]) (some []) "7" =
      some ",meter=2  7" := by
  decide

/-- C7: `influx_http_post` classifies every delivery outcome into exactly
one of three results: an HTTP status in the 2xx/3xx range yields 0 with the
body handed out only when the server sent one (and the caller asked for
it); a status in the 4xx/5xx range yields that status as a positive
integer; a transport-level or local failure with no status yields -1. -/
theorem C7_outcome_classes (s : Int) (body : Option String) (wantResp : Bool) :
    (200 ≤ s ∧ s ≤ 399 →
      influx_http_post true (curlPerform (some s) body) wantResp =
        (0, if wantResp then body else none)) ∧
    (400 ≤ s ∧ s ≤ 599 →
      influx_http_post true (curlPerform (some s) body) wantResp = (s, none) ∧ 0 < s) ∧
    influx_http_post true (curlPerform none body) wantResp = (-1, none) := by
  refine ⟨?_, ?_, rfl⟩
  · intro hs
    have h4 : ¬ (400 ≤ s) := by omega
    show influx_http_post true (if 400 ≤ s then CurlPerform.httpErr s else CurlPerform.ok body)
      wantResp = (0, if wantResp then body else none)
    rw [if_neg h4]
    rfl
  · intro hs
    have h4 : 400 ≤ s := hs.1
    show influx_http_post true (if 400 ≤ s then CurlPerform.httpErr s else CurlPerform.ok body)
      wantResp = (s, none) ∧ 0 < s
    rw [if_pos h4]
    exact ⟨rfl, by omega⟩

/-- Witness for C7: a 201 response yields success with the body, a 401
yields the positive status 401, a connection failure yields -1. -/
theorem C7_witness :
    influx_http_post true (curlPerform (some 201) (some "ok")) true = (0, some "ok") ∧
    influx_http_post true (curlPerform (some 401) none) false = (401, none) ∧
    influx_http_post true (curlPerform none none) false = (-1, none) := by
  refine ⟨?_, ?_, (C7_outcome_classes 0 none false).2.2⟩
  · exact (C7_outcome_classes 201 (some "ok") true).1 (by norm_num)
  · exact ((C7_outcome_classes 401 none false).2.1 (by norm_num)).1

/-- The fixed Accept header is not an Authorization header. -/
theorem accept_ne_auth (t : String) :
    "Accept: application/json" ≠ "Authorization: Token " ++ t := by
  intro hc
  have hd := congrArg String.data hc
  rw [String.data_append] at hd
  simp at hd

/-- The fixed Content-Type header is not an Authorization header. -/
theorem ctype_ne_auth (t : String) :
    "Content-Type: text/plain; charset=utf-8" ≠ "Authorization: Token " ++ t := by
  intro hc
  have hd := congrArg String.data hc
  rw [String.data_append] at hd
  simp at hd

/-- C8: the request carries an `Authorization: Token <secret>` header iff
the INFLUXDB_TOKEN environment variable is set; when it is unset the
request is still performed, carrying exactly the fixed Accept and
Content-Type headers, and no error arises from the missing secret. -/
theorem C8_auth_header (token : Option String) (ctxOk : Bool) (outcome : CurlPerform)
    (wantResp : Bool) :
    ((∃ h ∈ (influx_lines_post token ctxOk outcome wantResp).1,
        ∃ t, h = "Authorization: Token " ++ t) ↔ token.isSome = true) ∧
    (token = none →
      (influx_lines_post token ctxOk outcome wantResp).1 =
        ["Accept: application/json", "Content-Type: text/plain; charset=utf-8"]) ∧
    (∀ t, token = some t →
      (influx_lines_post token ctxOk outcome wantResp).1 =
        ["Accept: application/json", "Content-Type: text/plain; charset=utf-8",
         "Authorization: Token " ++ t]) ∧
    (influx_lines_post token ctxOk outcome wantResp).2 =
      influx_http_post ctxOk outcome wantResp := by
  refine ⟨?_, ?_, ?_, rfl⟩
  · cases token with
    | none =>
      simp only [influx_lines_post, influx_lines_post_headers, Option.isSome_none]
      constructor
      · rintro ⟨h, hmem, t, rfl⟩
        simp only [List.mem_cons, List.not_mem_nil, or_false] at hmem
        rcases hmem with h1 | h2
        · exact absurd h1.symm (accept_ne_auth t)
        · exact absurd h2.symm (ctype_ne_auth t)
      · intro hcon
        exact absurd hcon (by simp)
    | some t0 =>
      simp only [influx_lines_post, influx_lines_post_headers, Option.isSome_some]
      constructor
      · intro _
        trivial
      · intro _
        exact ⟨"Authorization: Token " ++ t0, by simp, t0, rfl⟩
  · intro ht
    rw [ht]
    rfl
  · intro t ht
    rw [ht]
    rfl

/-- Witness for C8: with the secret set to "tok" the Authorization header is
the third header sent; with it unset exactly the two fixed headers are
sent. -/
theorem C8_witness :
    (influx_lines_post (some "tok") true CurlPerform.fail false).1 =
      ["Accept: application/json", "Content-Type: text/plain; charset=utf-8",
       "Authorization: Token " ++ "tok"] ∧
    (influx_lines_post none true CurlPerform.fail false).1 =
      ["Accept: application/json", "Content-Type: text/plain; charset=utf-8"] := by
  refine ⟨?_, ?_⟩
  · exact (C8_auth_header (some "tok") true CurlPerform.fail false).2.2.1 "tok" rfl
  · exact (C8_auth_header none true CurlPerform.fail false).2.1 rfl
